import Mathlib

/-!
Shallow embedding of the vtfs in-memory filesystem module
(src/lab/vtfs/source/vtfs.c) and verification of its specification.

Layer 1 models the content buffer of one file together with the file
operations vtfs_read and vtfs_write.  Machine arithmetic that matters is
made explicit: vtfs_read computes `available = file_data->size - *ppos`
in the unsigned 64-bit type size_t, so the subtraction wraps modulo 2^64
and the subsequent `available <= 0` test only fires when the difference
is exactly zero.

Layer 2 models one directory of the namespace: the vtfs_file entry
records reachable from a parent's `vtfs_dir.children` list, the VFS
inode link counts touched through inode_inc_link_count /
inode_dec_link_count, and the identity and liveness of the kmalloc'd
data buffers, so that the sharing of a raw `data` pointer between two
entries (vtfs_link) and the unconditional `kfree(file_entry->data)`
in vtfs_unlink are visible.
-/

namespace VTFS

/-- 2^64, the modulus of the C type size_t on the target platform. -/
def U64 : Nat := 2 ^ 64

/-- The errno values the module returns (always negated in C). -/
inductive Err where
  | EPERM
  | ENOENT
  | ENOMEM
  | EFAULT
  | EEXIST
  | ENOTEMPTY
  | EINVAL
deriving DecidableEq

/-- The content-buffer state of one vtfs_file: the `size` field and the
`data` pointer, `none` standing for NULL and `some d` for a heap
allocation holding the byte list `d`. -/
structure VFile where
  size : Nat
  data : Option (List Nat)
deriving DecidableEq

/-- Well-formedness maintained by the module: the allocation behind
`data` holds exactly `size` bytes (a NULL `data` goes with size 0). -/
def WF (f : VFile) : Prop := (f.data.getD []).length = f.size

instance (f : VFile) : Decidable (WF f) := by
  unfold WF; infer_instance

/-- Overwrite `bytes` into `d` starting at position `p`
(the memcpy performed by copy_from_user into data + *ppos). -/
def writeBytes (d : List Nat) (p : Nat) (bytes : List Nat) : List Nat :=
  d.take p ++ bytes ++ d.drop (p + bytes.length)

/-- Embeds vtfs_read (vtfs.c lines 66-90).  Returns the (unchanged) file,
the new `*ppos`, and either the bytes copied to the user buffer or an
error.  `copyOk` is the environment's answer to copy_to_user (false:
the user buffer faults).  `available = file_data->size - *ppos` is
size_t arithmetic, hence the wrap modulo 2^64; `available <= 0` on the
unsigned type is `available = 0`.  Bytes fetched from beyond the
allocation (undefined behaviour in the C) are modelled as 0. -/
def vtfs_read (f : VFile) (ppos len : Nat) (copyOk : Bool) :
    VFile × Nat × Except Err (List Nat) :=
  match f.data with
  | none => (f, ppos, .ok [])
  | some d =>
    let available : Nat := (((f.size : Int) - (ppos : Int)) % (U64 : Int)).toNat
    if available = 0 then (f, ppos, .ok [])
    else
      let to_copy := min len available
      if copyOk then
        (f, ppos + to_copy, .ok ((List.range to_copy).map (fun i => d.getD (ppos + i) 0)))
      else (f, ppos, .error .EFAULT)

/-- Embeds vtfs_write (vtfs.c lines 92-130).  `allocOk` is the
environment's answer to krealloc (false: allocation fails, the old
buffer is left untouched), `copyOk` the answer to copy_from_user.
A grow to `new_size = max(*ppos + len, size)` preserves the old bytes
and memsets the region [old size, new_size) to zero before the copy of
`bytes` lands at `*ppos`. -/
def vtfs_write (f : VFile) (ppos : Nat) (bytes : List Nat) (allocOk copyOk : Bool) :
    VFile × Nat × Except Err Nat :=
  let len := bytes.length
  let new_size := max (ppos + len) f.size
  if new_size > f.size then
    if allocOk then
      let grown := f.data.getD [] ++ List.replicate (new_size - f.size) 0
      if copyOk then
        (⟨new_size, some (writeBytes grown ppos bytes)⟩, ppos + len, .ok len)
      else (⟨new_size, some grown⟩, ppos, .error .EFAULT)
    else (f, ppos, .error .ENOMEM)
  else
    if copyOk then
      match f.data with
      | none => (f, ppos + len, .ok len)
      | some d => (⟨f.size, some (writeBytes d ppos bytes)⟩, ppos + len, .ok len)
    else (f, ppos, .error .EFAULT)

/-- One vtfs_file record as linked into a parent's children list
(vtfs.c lines 18-26): the entry's name, its `ino` number, the S_ISDIR
bit of its `mode`, the identity of the `struct inode` it points to
(`inodeId`), its `size` field, and the identity of its `data` pointer
(`none` for NULL).  Buffer contents are tracked by the layer-1 model;
this layer tracks pointer identity and liveness. -/
structure Entry where
  name : String
  ino : Nat
  isDir : Bool
  inodeId : Nat
  size : Nat
  dataPtr : Option Nat
deriving DecidableEq

/-- What vtfs_iterate emits per entry through dir_emit:
name, inode number, and DT_DIR vs DT_REG computed from S_ISDIR(mode). -/
structure DirEnt where
  name : String
  ino : Nat
  isDir : Bool
deriving DecidableEq

/-- The state of one directory and the heap facts its operations touch:
`children` is the parent's list in list_head order (head first, as
vtfs_iterate walks it); `nlink` maps inode identity to i_nlink;
`liveBufs` is the set of data allocations not yet kfree'd; the
counters model get_next_ino, new_inode, and kmalloc returning fresh
identities.  Allocations are modelled as succeeding: every early
error return of the C on allocation failure happens before any
mutation of this state. -/
structure St where
  children : List Entry
  nlink : List (Nat × Nat)
  liveBufs : List Nat
  nextIno : Nat
  nextInodeId : Nat
  nextBuf : Nat
deriving DecidableEq

/-- The duplicate scan of the children list run by vtfs_create
(lines 147-153) and vtfs_link (lines 229-236): strcmp against each
entry name. -/
def hasName (s : St) (nm : String) : Bool :=
  s.children.any (fun e => e.name == nm)

/-- Apply `g` to the count stored for inode `i`
(inode_inc_link_count / inode_dec_link_count on that inode). -/
def nlinkAdj (l : List (Nat × Nat)) (i : Nat) (g : Nat → Nat) : List (Nat × Nat) :=
  l.map (fun p => if p.1 == i then (p.1, g p.2) else p)

/-- Read the i_nlink of inode `i` (0 when the inode is unknown). -/
def nlinkGet (l : List (Nat × Nat)) (i : Nat) : Nat :=
  ((l.find? (fun p => p.1 == i)).map (fun p => p.2)).getD 0

/-- The search-and-unsplice of vtfs_unlink's list_for_each_entry loop:
find the first entry whose name matches, return it and the list with
it removed (list_del). -/
def removeFirst : List Entry → String → Option (Entry × List Entry)
  | [], _ => none
  | e :: rest, nm =>
    if e.name == nm then some (e, rest)
    else
      match removeFirst rest nm with
      | none => none
      | some (x, rest2) => some (x, e :: rest2)

/-- Update the first entry whose name matches (mutation through the
single vtfs_file record that the file's inode->i_private points to). -/
def updFirst : List Entry → String → (Entry → Entry) → List Entry
  | [], _, _ => []
  | e :: rest, nm, g => if e.name == nm then g e :: rest else e :: updFirst rest nm g

/-- Embeds vtfs_create (vtfs.c lines 132-173).  S_ISDIR(mode) is
rejected with -EPERM first; then the duplicate scan returns -EEXIST;
otherwise a fresh vtfs_file (size 0, data NULL) and a fresh inode
(new_inode starts i_nlink at 1) are allocated and the entry is
inserted with list_add, which adds at the HEAD of the list. -/
def vtfs_create (s : St) (nm : String) (isDir : Bool) : Except Err St :=
  if isDir then .error .EPERM
  else if hasName s nm then .error .EEXIST
  else
    .ok ⟨⟨nm, s.nextIno, false, s.nextInodeId, 0, none⟩ :: s.children,
      (s.nextInodeId, 1) :: s.nlink, s.liveBufs,
      s.nextIno + 1, s.nextInodeId + 1, s.nextBuf⟩

/-- Embeds vtfs_mkdir (vtfs.c lines 302-357).  There is no duplicate
scan of the parent's children: the function allocates the vtfs_file
and vtfs_dir, assigns a fresh ino and inode, and appends the entry
with list_add_tail unconditionally. -/
def vtfs_mkdir (s : St) (nm : String) : Except Err St :=
  .ok ⟨s.children ++ [⟨nm, s.nextIno, true, s.nextInodeId, 0, none⟩],
    (s.nextInodeId, 1) :: s.nlink, s.liveBufs,
    s.nextIno + 1, s.nextInodeId + 1, s.nextBuf⟩

/-- Embeds vtfs_link (vtfs.c lines 216-257).  `oldName` stands for the
entry old_dentry resolves to (resolved here by name in the same
directory; a missing entry cannot reach the C function).  The record
is kzalloc'd, so its ino is 0 and its mode is 0 (not a directory);
`size` and the raw `data` pointer are copied from the old record
(line 245-246), the entry is appended with list_add_tail, and
i_nlink of the shared inode is incremented. -/
def vtfs_link (s : St) (oldName newName : String) : Except Err St :=
  match s.children.find? (fun e => e.name == oldName) with
  | none => .error .ENOENT
  | some old =>
    if old.isDir then .error .EPERM
    else if hasName s newName then .error .EEXIST
    else
      .ok ⟨s.children ++ [⟨newName, 0, false, old.inodeId, old.size, old.dataPtr⟩],
        nlinkAdj s.nlink old.inodeId (fun n => n + 1), s.liveBufs,
        s.nextIno, s.nextInodeId, s.nextBuf⟩

/-- Embeds vtfs_unlink (vtfs.c lines 175-214).  The first entry whose
name matches is unspliced (list_del); its name, its DATA BUFFER and
the record itself are kfree'd unconditionally — there is no check of
the entry's kind and no check of the inode's remaining link count —
then i_nlink of the entry's inode is decremented.  kfree(NULL) is a
no-op.  A name with no entry yields -ENOENT. -/
def vtfs_unlink (s : St) (nm : String) : Except Err St :=
  match removeFirst s.children nm with
  | none => .error .ENOENT
  | some (e, rest) =>
    .ok ⟨rest, nlinkAdj s.nlink e.inodeId (fun n => n - 1),
      (match e.dataPtr with
       | none => s.liveBufs
       | some b => s.liveBufs.erase b),
      s.nextIno, s.nextInodeId, s.nextBuf⟩

/-- Embeds vtfs_lookup (vtfs.c lines 285-300): scan the children list
from the head, d_add the first entry whose name matches. -/
def vtfs_lookup (s : St) (nm : String) : Option Nat :=
  (s.children.find? (fun e => e.name == nm)).map (fun e => e.inodeId)

/-- What dir_emit receives for an entry. -/
def entryView (e : Entry) : DirEnt := ⟨e.name, e.ino, e.isDir⟩

/-- The loop body of vtfs_iterate: `if (index++ < offset) continue;`
then emit the entry; `index` advances on every element. -/
def iterAux : List Entry → Nat → Nat → List DirEnt
  | [], _, _ => []
  | e :: rest, index, offset =>
    if index < offset then iterAux rest (index + 1) offset
    else entryView e :: iterAux rest (index + 1) offset

/-- Embeds vtfs_iterate (vtfs.c lines 259-283) with every dir_emit
succeeding: the emitted sequence starting from ctx->pos = offset. -/
def vtfs_iterate (s : St) (offset : Nat) : List DirEnt :=
  iterAux s.children 0 offset

/-- Embeds vtfs_write as invoked through a file handle opened on the
named entry (the inode's i_private is the vtfs_file record created
with it), at file position 0 and with every allocation succeeding;
only the fields this layer tracks are updated: a grow through
krealloc keeps the buffer's identity when data was non-NULL and
allocates a fresh identity when data was NULL. -/
def writeByName (s : St) (nm : String) (len : Nat) : Except Err St :=
  match s.children.find? (fun e => e.name == nm) with
  | none => .error .ENOENT
  | some e =>
    let new_size := max len e.size
    if new_size > e.size then
      match e.dataPtr with
      | some b =>
        .ok ⟨updFirst s.children nm
              (fun x => ⟨x.name, x.ino, x.isDir, x.inodeId, new_size, some b⟩),
          s.nlink, s.liveBufs, s.nextIno, s.nextInodeId, s.nextBuf⟩
      | none =>
        .ok ⟨updFirst s.children nm
              (fun x => ⟨x.name, x.ino, x.isDir, x.inodeId, new_size, some s.nextBuf⟩),
          s.nlink, s.nextBuf :: s.liveBufs, s.nextIno, s.nextInodeId, s.nextBuf + 1⟩
    else .ok s

/-- The empty root directory right after vtfs_fill_super, with the
allocation counters started at 1. -/
def emptySt : St := ⟨[], [], [], 1, 1, 1⟩

/-- The hard-link scenario of the specification: create file "a",
write one byte to it (allocating its data buffer), hard-link it to a
second name "b", then unlink the original name "a". -/
def linkUnlinkRun : Except Err St := do
  let s1 ← vtfs_create emptySt "a" false
  let s2 ← writeByName s1 "a" 1
  let s3 ← vtfs_link s2 "a" "b"
  vtfs_unlink s3 "a"

/-- mkdir "d" twice in the same (initially empty) directory. -/
def mkdirTwiceRun : Except Err St := do
  let s1 ← vtfs_mkdir emptySt "d"
  vtfs_mkdir s1 "d"

/-- mkdir "d", then unlink (not rmdir) of that directory name. -/
def mkdirUnlinkRun : Except Err St := do
  let s1 ← vtfs_mkdir emptySt "d"
  vtfs_unlink s1 "d"

/-- create file "a", then create file "b", in the same directory. -/
def createTwiceRun : Except Err St := do
  let s1 ← vtfs_create emptySt "a" false
  vtfs_create s1 "b" false

/-- create file "x", then mkdir "x", in the same directory. -/
def createMkdirRun : Except Err St := do
  let s1 ← vtfs_create emptySt "x" false
  vtfs_mkdir s1 "x"

end VTFS

namespace VTFS

theorem writeBytes_length (d bytes : List Nat) (p : Nat)
    (hp : p + bytes.length ≤ d.length) :
    (writeBytes d p bytes).length = d.length := by
  unfold writeBytes
  simp [List.length_append, List.length_take, List.length_drop]
  omega

theorem readback (pre bytes suf : List Nat) (p : Nat) (hp : pre.length = p) :
    ∀ i, i < bytes.length → (pre ++ bytes ++ suf).getD (p + i) 0 = bytes.getD i 0 := by
  intro i hi
  have h1 : (pre ++ (bytes ++ suf))[p + i]? = (bytes ++ suf)[p + i - pre.length]? :=
    List.getElem?_append_right (by omega)
  have h2 : (bytes ++ suf)[i]? = bytes[i]? := List.getElem?_append_left hi
  have h3 : p + i - pre.length = i := by omega
  simp only [List.getD_eq_getElem?_getD, List.append_assoc]
  rw [h1, h3, h2]

theorem writeBytes_readback (d bytes : List Nat) (p : Nat) (hp : p ≤ d.length) :
    ∀ i, i < bytes.length → (writeBytes d p bytes).getD (p + i) 0 = bytes.getD i 0 := by
  intro i hi
  unfold writeBytes
  exact readback (d.take p) bytes (d.drop (p + bytes.length)) p
    (by simp [List.length_take]; omega) i hi

theorem range_map_getD (bytes : List Nat) (g : Nat → Nat)
    (h : ∀ i, i < bytes.length → g i = bytes.getD i 0) :
    (List.range bytes.length).map g = bytes := by
  apply List.ext_getElem
  · simp
  · intro i h1 h2
    simp only [List.getElem_map, List.getElem_range]
    rw [h i (by simpa using h2)]
    simp [List.getD_eq_getElem?_getD, List.getElem?_eq_getElem h2]

theorem read_len_zero (f : VFile) (p : Nat) :
    (vtfs_read f p 0 true).2.2 = .ok [] := by
  unfold vtfs_read
  cases f.data with
  | none => rfl
  | some d =>
    dsimp only
    split
    · rfl
    · simp

theorem iterAux_eq_drop (l : List Entry) :
    ∀ i off, iterAux l i off = (l.drop (off - i)).map entryView := by
  induction l with
  | nil => intro i off; simp [iterAux]
  | cons e rest ih =>
    intro i off
    by_cases h : i < off
    · have h2 : off - i = (off - (i + 1)) + 1 := by omega
      simp [iterAux, h, ih, h2]
    · have h2 : off - i = 0 := by omega
      have h3 : off - (i + 1) = 0 := by omega
      simp [iterAux, h, ih, h2, h3]

theorem removeFirst_of_any (l : List Entry) (nm : String)
    (h : l.any (fun e => e.name == nm) = true) :
    ∃ e rest, removeFirst l nm = some (e, rest) ∧ rest.length + 1 = l.length := by
  induction l with
  | nil => simp at h
  | cons a l ih =>
    by_cases ha : a.name == nm
    · exact ⟨a, l, by simp [removeFirst, ha], rfl⟩
    · have h2 : l.any (fun e => e.name == nm) = true := by
        simpa [List.any_cons, ha] using h
      obtain ⟨e, rest, hrf, hlen⟩ := ih h2
      refine ⟨e, a :: rest, by simp [removeFirst, ha, hrf], by simp; omega⟩

/-- C1: link shares the raw data pointer between two entry records
(vtfs.c line 246) and unlink kfrees the data pointer unconditionally
(line 201).  In the run create "a"; write 1 byte; link "a" to "b";
unlink "a", the surviving entry "b" still references buffer 1, yet
buffer 1 is no longer live (it was freed although the inode's link
count is still 1, not 0) — the use-after-free the claim rules out. -/
theorem c1_shared_buffer_freed_early :
    linkUnlinkRun.map
        (fun s => (s.children.map (fun e => (e.name, e.dataPtr)), s.liveBufs,
          nlinkGet s.nlink 1))
      = .ok ([("b", some 1)], [], 1) := rfl

/-- C2: the claim says a read at offset ≥ size returns zero bytes.
In the code `available = file_data->size - *ppos` is computed in the
unsigned type size_t, so at size 2 and *ppos 5 it wraps to 2^64 - 3,
the `available <= 0` end-of-file test does not fire, and the read
returns to_copy = min(3, 2^64 - 3) = 3 bytes copied from beyond the
2-byte allocation, advancing *ppos to 8. -/
theorem c2_read_past_end_copies :
    vtfs_read ⟨2, some [65, 66]⟩ 5 3 true = (⟨2, some [65, 66]⟩, 8, .ok [0, 0, 0]) := rfl

/-- C3: the claim says mkdir of a name already present fails
AlreadyExists, inserting no entry and allocating no inode.
vtfs_mkdir performs no duplicate scan: mkdir "d" twice in an empty
directory succeeds both times, leaving two co-resident entries named
"d" with two freshly allocated inodes. -/
theorem c3_mkdir_inserts_duplicate :
    mkdirTwiceRun = .ok ⟨[⟨"d", 1, true, 1, 0, none⟩, ⟨"d", 2, true, 2, 0, none⟩],
      [(2, 1), (1, 1)], [], 3, 3, 1⟩ := rfl

/-- C4 counterexample: the claim says unlink of a Directory target
fails IsADirectory and changes nothing.  After mkdir "d",
vtfs_unlink "d" succeeds (no kind check exists in the function),
removes the entry and decrements the directory inode's link count
to 0. -/
theorem c4_counterexample_unlink_dir_succeeds :
    mkdirUnlinkRun = .ok ⟨[], [(1, 0)], [], 2, 2, 1⟩ := rfl

/-- C4 as amended: vtfs_unlink never inspects the target's kind.
Whenever the name is present — whether it names a File or a
Directory entry — unlink succeeds and removes exactly one entry
(the IsADirectory rejection is not performed by this module). -/
theorem c4_unlink_ignores_kind (s : St) (nm : String) (h : hasName s nm = true) :
    ∃ s1, vtfs_unlink s nm = .ok s1 ∧ s1.children.length + 1 = s.children.length := by
  obtain ⟨e, rest, hrf, hlen⟩ := removeFirst_of_any s.children nm h
  refine ⟨⟨rest, nlinkAdj s.nlink e.inodeId (fun n => n - 1),
    (match e.dataPtr with
     | none => s.liveBufs
     | some b => s.liveBufs.erase b),
    s.nextIno, s.nextInodeId, s.nextBuf⟩, ?_, hlen⟩
  simp [vtfs_unlink, hrf]

/-- C4 amended-claim witness: a directory containing only the
Directory entry "d"; unlink succeeds there and leaves zero entries. -/
theorem c4_unlink_ignores_kind_witness :
    hasName ⟨[⟨"d", 1, true, 1, 0, none⟩], [(1, 1)], [], 2, 2, 1⟩ "d" = true ∧
    ∃ s1, vtfs_unlink ⟨[⟨"d", 1, true, 1, 0, none⟩], [(1, 1)], [], 2, 2, 1⟩ "d" = .ok s1 ∧
      s1.children.length + 1 =
        (⟨[⟨"d", 1, true, 1, 0, none⟩], [(1, 1)], [], 2, 2, 1⟩ : St).children.length :=
  ⟨rfl, c4_unlink_ignores_kind ⟨[⟨"d", 1, true, 1, 0, none⟩], [(1, 1)], [], 2, 2, 1⟩ "d" rfl⟩

/-- C5 counterexample: the claim says create appends, so two creates
"a" then "b" should enumerate as a, b.  vtfs_create inserts with
list_add, which adds at the head: enumeration from offset 0 yields
b, a. -/
theorem c5_counterexample_create_prepends :
    createTwiceRun.map (fun s => (vtfs_iterate s 0).map DirEnt.name) = .ok ["b", "a"] ∧
    (["b", "a"] : List String) ≠ ["a", "b"] := ⟨rfl, by decide⟩

/-- C5 as amended: mkdir and link append their new entry after all
existing ones (list_add_tail) but create prepends it before all
existing ones (list_add), and enumeration from start_offset yields
the start_offset-th and subsequent entries of the directory's list in
list order — so enumeration is insertion order for mkdir- and
link-created entries and reverse insertion order for create-created
entries. -/
theorem c5_insertion_order (s : St) (nm oldNm newNm : String) (b : Bool) (off : Nat) :
    (∀ s1, vtfs_create s nm b = .ok s1 →
      s1.children = ⟨nm, s.nextIno, false, s.nextInodeId, 0, none⟩ :: s.children) ∧
    (∀ s1, vtfs_mkdir s nm = .ok s1 →
      s1.children = s.children ++ [⟨nm, s.nextIno, true, s.nextInodeId, 0, none⟩]) ∧
    (∀ s1, vtfs_link s oldNm newNm = .ok s1 →
      ∃ e : Entry, e.name = newNm ∧ s1.children = s.children ++ [e]) ∧
    vtfs_iterate s off = (s.children.drop off).map entryView := by
  refine ⟨?_, ?_, ?_, ?_⟩
  · intro s1 h
    unfold vtfs_create at h
    split at h
    · cases h
    · split at h
      · cases h
      · cases h; rfl
  · intro s1 h
    cases h; rfl
  · intro s1 h
    unfold vtfs_link at h
    split at h
    · cases h
    · split at h
      · cases h
      · split at h
        · cases h
        · cases h
          exact ⟨_, rfl, rfl⟩
  · have h0 := iterAux_eq_drop s.children 0 off
    simpa [vtfs_iterate] using h0

/-- C5 amended-claim witness: create "a" into the empty root prepends;
mkdir "d" into the empty root appends; link "a" to "b" in a
one-file directory appends an entry named "b"; enumeration of the
empty root from offset 0 is empty. -/
theorem c5_insertion_order_witness :
    (⟨[⟨"a", 1, false, 1, 0, none⟩], [(1, 1)], [], 2, 2, 1⟩ : St).children
      = ⟨"a", 1, false, 1, 0, none⟩ :: emptySt.children ∧
    (⟨[⟨"d", 1, true, 1, 0, none⟩], [(1, 1)], [], 2, 2, 1⟩ : St).children
      = emptySt.children ++ [⟨"d", 1, true, 1, 0, none⟩] ∧
    (∃ e : Entry, e.name = "b" ∧
      (⟨[⟨"a", 1, false, 1, 0, none⟩, ⟨"b", 0, false, 1, 0, none⟩], [(1, 2)], [], 2, 2, 1⟩ :
          St).children
        = (⟨[⟨"a", 1, false, 1, 0, none⟩], [(1, 1)], [], 2, 2, 1⟩ : St).children ++ [e]) ∧
    vtfs_iterate emptySt 0 = ([].drop 0).map entryView := by
  refine ⟨?_, ?_, ?_, ?_⟩
  · exact (c5_insertion_order emptySt "a" "x" "y" false 0).1 _ rfl
  · exact (c5_insertion_order emptySt "d" "x" "y" false 0).2.1 _ rfl
  · exact (c5_insertion_order
      ⟨[⟨"a", 1, false, 1, 0, none⟩], [(1, 1)], [], 2, 2, 1⟩ "z" "a" "b" false 0).2.2.1 _ rfl
  · exact (c5_insertion_order emptySt "z" "x" "y" false 0).2.2.2

theorem read_in_range (sz : Nat) (d : List Nat) (p len : Nat)
    (hd : d.length = sz) (hrange : p + len ≤ sz) (hsz : sz < U64) (hlen : 0 < len) :
    (vtfs_read ⟨sz, some d⟩ p len true).2.2
      = .ok ((List.range len).map (fun i => d.getD (p + i) 0)) := by
  have hU : U64 = 18446744073709551616 := by norm_num [U64]
  have havail : (((sz : Int) - (p : Int)) % ((U64 : Int))).toNat = sz - p := by
    rw [hU] at hsz ⊢
    rw [Int.emod_eq_of_lt (by omega) (by push_cast; omega)]
    omega
  unfold vtfs_read
  dsimp only
  rw [havail, if_neg (by omega), if_pos rfl]
  have hmin : min len (sz - p) = len := by omega
  rw [hmin]

theorem write_ok_result (f : VFile) (p : Nat) (bytes : List Nat)
    (hwf : WF f) (hb : 0 < bytes.length) :
    ∃ d, (vtfs_write f p bytes true true).1 = ⟨max (p + bytes.length) f.size, some d⟩ ∧
      d.length = max (p + bytes.length) f.size ∧
      (∀ i, i < bytes.length → d.getD (p + i) 0 = bytes.getD i 0) := by
  have hwf' : (f.data.getD []).length = f.size := hwf
  unfold vtfs_write
  dsimp only
  by_cases hg : max (p + bytes.length) f.size > f.size
  · rw [if_pos hg]
    have hglen :
        (f.data.getD [] ++ List.replicate (max (p + bytes.length) f.size - f.size) 0).length
          = max (p + bytes.length) f.size := by
      simp [List.length_append, hwf']
    refine ⟨_, rfl, ?_, ?_⟩
    · rw [writeBytes_length _ _ _ (by rw [hglen]; omega), hglen]
    · exact writeBytes_readback _ bytes p (by rw [hglen]; omega)
  · rw [if_neg hg]
    have hmax : max (p + bytes.length) f.size = f.size := by omega
    cases hd : f.data with
    | none =>
      rw [hd] at hwf'
      exfalso
      simp at hwf'
      omega
    | some d0 =>
      rw [hd] at hwf'
      simp at hwf'
      dsimp only
      rw [hmax]
      refine ⟨writeBytes d0 p bytes, rfl, ?_, ?_⟩
      · rw [writeBytes_length _ _ _ (by omega), hwf']
      · exact writeBytes_readback d0 bytes p (by omega)

/-- C7: write(offset, bytes) followed by read(offset, len(bytes)) on
the same file returns exactly the bytes written, and a write past the
end zero-fills the gap: writing "AB" (65 66) at offset 0 into an empty
file, then "X" (88) at offset 5, makes bytes [0,6) read back as
65 66 0 0 0 88. -/
theorem c7_write_read_roundtrip (f : VFile) (p : Nat) (bytes : List Nat)
    (hwf : WF f) (h1 : f.size < U64) (h2 : p + bytes.length < U64) :
    (vtfs_read (vtfs_write f p bytes true true).1 p bytes.length true).2.2 = .ok bytes ∧
    (vtfs_read (vtfs_write (vtfs_write ⟨0, none⟩ 0 [65, 66] true true).1 5 [88] true true).1
        0 6 true).2.2 = .ok [65, 66, 0, 0, 0, 88] := by
  constructor
  · rcases Nat.eq_zero_or_pos bytes.length with hb | hb
    · have hnil : bytes = [] := List.length_eq_zero.mp hb
      subst hnil
      exact read_len_zero _ p
    · obtain ⟨d, hshape, hdlen, hread⟩ := write_ok_result f p bytes hwf hb
      rw [hshape,
        read_in_range (max (p + bytes.length) f.size) d p bytes.length hdlen
          (by omega) (by omega) hb]
      exact congrArg Except.ok (range_map_getD bytes _ hread)
  · rfl

/-- C7 witness: writing [1, 2] at offset 0 into the empty file and
reading 2 bytes back at offset 0 returns [1, 2]. -/
theorem c7_write_read_roundtrip_witness :
    WF ⟨0, none⟩ ∧ (0 : Nat) < U64 ∧ 0 + [1, 2].length < U64 ∧
    (vtfs_read (vtfs_write ⟨0, none⟩ 0 [1, 2] true true).1 0 [1, 2].length true).2.2
      = .ok [1, 2] :=
  ⟨rfl, by norm_num [U64], by norm_num [U64],
    (c7_write_read_roundtrip ⟨0, none⟩ 0 [1, 2] rfl (by norm_num [U64])
      (by norm_num [U64])).1⟩

/-- C8: a write that must grow the buffer (offset + len exceeds the
current size) and whose krealloc fails returns -ENOMEM with the
buffer — size and data pointer — and the file position exactly as
they were before the call. -/
theorem c8_alloc_failure_no_mutation (f : VFile) (p : Nat) (bytes : List Nat) (c : Bool)
    (h : f.size < p + bytes.length) :
    vtfs_write f p bytes false c = (f, p, .error .ENOMEM) := by
  unfold vtfs_write
  have hm : max (p + bytes.length) f.size > f.size := by omega
  simp [hm]

/-- C8 witness: growing the empty file by one byte at offset 1 with a
failing allocation reports ENOMEM and leaves the file untouched. -/
theorem c8_alloc_failure_no_mutation_witness :
    (⟨0, none⟩ : VFile).size < 1 + [7].length ∧
    vtfs_write ⟨0, none⟩ 1 [7] false true = (⟨0, none⟩, 1, .error .ENOMEM) :=
  ⟨by decide, c8_alloc_failure_no_mutation ⟨0, none⟩ 1 [7] true (by decide)⟩

/-- C10: vtfs_read never stores to the file's state — size and data are
the same after the call — and the only mutation is *ppos, which
advances by exactly the number of bytes the call returns: by the
length of the returned byte list on success and by nothing on an
error return. -/
theorem c10_read_frame (f : VFile) (p len : Nat) (c : Bool) :
    (vtfs_read f p len c).1 = f ∧
    (vtfs_read f p len c).2.1 =
      p + (match (vtfs_read f p len c).2.2 with
           | .ok bs => bs.length
           | .error _ => 0) := by
  unfold vtfs_read
  split
  · exact ⟨rfl, rfl⟩
  · dsimp only
    split
    · exact ⟨rfl, rfl⟩
    · split
      · refine ⟨rfl, ?_⟩
        simp
      · exact ⟨rfl, rfl⟩

/-- C6: the claim says no sequence of the namespace operations can
leave two co-resident entries with the same name.  create "x"
followed by mkdir "x" succeeds (mkdir has no duplicate scan) and
leaves the directory with two entries both named "x". -/
theorem c6_duplicate_coresident_names :
    createMkdirRun.map (fun s => s.children.map Entry.name) = .ok ["x", "x"] := rfl

end VTFS
